import Mathlib

/-
Shallow embedding of the li-todd/validator service.

The repository is a Hono (Cloudflare Workers) app with two source variants:
  * the full variant (file part_000): posts stub routes plus three
    organization-scoped validation-request routes backed by a Cloudflare KV
    namespace (RCX_VALIDATOR) with put / get / list-by-prefix / delete;
  * the reduced variant (src/index.ts): same posts stub routes, but the POST
    /api/:org/req-validate handler only echoes the validated payload and the
    GET / DELETE validation-request routes do not exist.

Modelling conventions:
  * JSON documents are the inductive JVal; c.json(x, status) is an
    HttpResponse with a status code and a JVal body (default status 200).
  * The external KV namespace is a list of (key, value) entries plus a fault
    flag: when the flag carries a message every storage call throws with that
    message (this is how "the store's put throws" is made explicit).
    Cloudflare KV list({ prefix }) returns the matching keys sorted in
    lexicographic key order; the model returns the filtered keys sorted by
    the String linear order.
  * Stored values are KVValue: KVValue.record r stands for the string
    JSON.stringify of the record written by the create handler (never empty,
    parses back to r); KVValue.raw s stands for the literal stored string s
    when it is not valid JSON.  The GET handler's if (value) truthiness
    guard is KVValue.truthy: a raw empty string is falsy and skips
    JSON.parse, a truthy raw value makes JSON.parse throw (which the
    enclosing try/catch converts to a 500 response).
  * zod's z.object schemas use the default "strip" mode: unknown keys of the
    payload are dropped, missing or mistyped declared keys produce issues,
    string min/max bound the character count.
  * crypto.randomUUID() and each new Date().toISOString() call site are
    modelled as explicit arguments supplied by the environment (one argument
    per call site in the handler body).
-/

/-- JSON values.  The numeric payload is irrelevant to every modelled
behavior (no schema here accepts a number), so an Int carrier suffices. -/
inductive JVal where
  | null
  | bool (b : Bool)
  | num (n : Int)
  | str (s : String)
  | arr (elems : List JVal)
  | obj (fields : List (String × JVal))

/-- An HTTP response produced by c.json: a status code and a JSON body. -/
structure HttpResponse where
  status : Nat
  body : JVal

/-- The record the create handler stores: JSON.stringify of
org, id, salt, timestamp (part_000, lines 176-180). -/
structure StoredRecord where
  org : String
  id : String
  salt : String
  timestamp : String
deriving DecidableEq

/-- A value held by the KV namespace.  record r is the serialized form of r
(as written by the create handler); raw s is a string that is not valid
JSON, on which JSON.parse throws. -/
inductive KVValue where
  | record (r : StoredRecord)
  | raw (s : String)
deriving DecidableEq

/-- JSON.parse of a stored value, read back as a stored record; none means
JSON.parse throws. -/
def parseStored : KVValue → Option StoredRecord
  | KVValue.record r => some r
  | KVValue.raw _ => none

/-- JavaScript truthiness of a fetched value string, as the GET handler's
if (value) guard tests it: among strings only the empty string is falsy.
JSON.stringify of a record is never empty, so a record value is always
truthy; a raw value is truthy exactly when its string is non-empty. -/
def KVValue.truthy : KVValue → Bool
  | KVValue.record _ => true
  | KVValue.raw s => !(s == "")

/-- String s is a (string) prefix of k, byte-for-byte — the matching rule of
Cloudflare KV list({ prefix }). -/
def strHasPrefix (p k : String) : Bool :=
  p.toList.isPrefixOf k.toList

/-- The external KV namespace (binding RCX_VALIDATOR): its entries, plus a
fault flag.  fail = some m means every storage operation throws an Error
with message m; fail = none means the store operates normally. -/
structure KV where
  entries : List (String × KVValue)
  fail : Option String
deriving DecidableEq

/-- The KV namespace with no entries and no fault. -/
def kvEmpty : KV := ⟨[], none⟩

/-- First entry of an association list holding the key, if any. -/
def lookupEntry (l : List (String × KVValue)) (k : String) : Option KVValue :=
  (l.find? (fun e => e.fst == k)).map Prod.snd

/-- Lexicographic less-or-equal on character lists (executable; agrees with
the List Char order, see charListLe_iff below). -/
def charListLe : List Char → List Char → Bool
  | [], _ => true
  | _ :: _, [] => false
  | x :: xs, y :: ys =>
    if x < y then true
    else if y < x then false
    else charListLe xs ys

/-- Lexicographic less-or-equal on keys (executable; agrees with the String
linear order, see keyLe_iff below). -/
def keyLe (a b : String) : Bool :=
  charListLe a.toList b.toList

/-- Insert a key into a list sorted by keyLe, keeping it sorted. -/
def insertKey (k : String) : List String → List String
  | [] => [k]
  | x :: xs => if keyLe k x then k :: x :: xs else x :: insertKey k xs

/-- Keys sorted in lexicographic order, as Cloudflare KV returns them from
a prefix listing. -/
def sortKeys : List String → List String
  | [] => []
  | k :: ks => insertKey k (sortKeys ks)

/-- KV list({ prefix: p }).keys: all stored keys with prefix p, in
lexicographic order.  Throws when the fault flag is set. -/
def KV.listKeys (st : KV) (p : String) : Except String (List String) :=
  match st.fail with
  | some m => Except.error m
  | none => Except.ok (sortKeys ((st.entries.map Prod.fst).filter (fun k => strHasPrefix p k)))

/-- KV get(k): the stored value, or null.  Throws when the fault flag is
set. -/
def KV.getVal (st : KV) (k : String) : Except String (Option KVValue) :=
  match st.fail with
  | some m => Except.error m
  | none => Except.ok (lookupEntry st.entries k)

/-- KV put(k, v): replaces any entry under k.  Throws when the fault flag
is set. -/
def KV.put (st : KV) (k : String) (v : KVValue) : Except String KV :=
  match st.fail with
  | some m => Except.error m
  | none => Except.ok { st with entries := (st.entries.filter (fun e => !(e.fst == k))) ++ [(k, v)] }

/-- KV delete(k).  Throws when the fault flag is set. -/
def KV.del (st : KV) (k : String) : Except String KV :=
  match st.fail with
  | some m => Except.error m
  | none => Except.ok { st with entries := st.entries.filter (fun e => !(e.fst == k)) }

/-- Promise.all over KV delete for each key (part_000, lines 252-254); the
deletions commute, so the concurrent join is the sequential fold. -/
def KV.delAll (st : KV) (ks : List String) : Except String KV :=
  match ks with
  | [] => Except.ok st
  | k :: ks' =>
    match st.del k with
    | Except.error m => Except.error m
    | Except.ok st2 => KV.delAll st2 ks'

/-- The parsed Post payload (postSchema). -/
structure PostPayload where
  title : String
  content : String
deriving DecidableEq

/-- The parsed ValidationRequest payload (validateRequestSchema). -/
structure ValidateRequest where
  id : String
  salt : String
deriving DecidableEq

/-- The payload bounds validateRequestSchema enforces: id a non-empty
string, salt a string of at least 6 characters. -/
def ValidateRequest.wf (d : ValidateRequest) : Prop :=
  1 ≤ d.id.length ∧ 6 ≤ d.salt.length

/-- A zod issue: the offending field's path and an issue code. -/
abbrev FieldIssue := String × String

/-- Field access on a JSON object (JS object key lookup). -/
def lookupField (fields : List (String × JVal)) (k : String) : Option JVal :=
  (fields.find? (fun f => f.fst == k)).map Prod.snd

/-- z.string().min(lo).max(hi) applied to one declared key of an object:
either the issues it raises, or the accepted string.  A missing key and a
non-string value both raise invalid_type; out-of-bound lengths raise
too_small / too_big. -/
def checkStrField (fields : List (String × JVal)) (name : String) (lo : Nat) (hi : Option Nat) :
    List FieldIssue × Option String :=
  match lookupField fields name with
  | some (JVal.str s) =>
    if s.length < lo then ([(name, "too_small")], none)
    else
      match hi with
      | some h => if h < s.length then ([(name, "too_big")], none) else ([], some s)
      | none => ([], some s)
  | some _ => ([(name, "invalid_type")], none)
  | none => ([(name, "invalid_type")], none)

/-- postSchema.safeParse: title a string of 1-100 characters, content a
string of 1-1000 characters.  z.object strip mode: unknown keys are
dropped, never rejected. -/
def safeParsePost (v : JVal) : Except (List FieldIssue) PostPayload :=
  match v with
  | JVal.obj fields =>
    let t := checkStrField fields "title" 1 (some 100)
    let c := checkStrField fields "content" 1 (some 1000)
    match t.2, c.2 with
    | some ts, some cs => Except.ok ⟨ts, cs⟩
    | _, _ => Except.error (t.1 ++ c.1)
  | _ => Except.error [("", "invalid_type")]

/-- validateRequestSchema.safeParse: id a non-empty string, salt a string of
at least 6 characters.  z.object strip mode: unknown keys are dropped,
never rejected. -/
def safeParseValidateRequest (v : JVal) : Except (List FieldIssue) ValidateRequest :=
  match v with
  | JVal.obj fields =>
    let i := checkStrField fields "id" 1 none
    let s := checkStrField fields "salt" 6 none
    match i.2, s.2 with
    | some iv, some sv => Except.ok ⟨iv, sv⟩
    | _, _ => Except.error (i.1 ++ s.1)
  | _ => Except.error [("", "invalid_type")]

/-- The zod issues rendered into the errors field of the 400 body. -/
def issuesToJVal (issues : List FieldIssue) : JVal :=
  JVal.arr (issues.map (fun i => JVal.obj [("path", JVal.arr [JVal.str i.fst]), ("message", JVal.str i.snd)]))

/-- The 400 response every validator('json', ...) callback returns on a
failed safeParse. -/
def respInvalid (issues : List FieldIssue) : HttpResponse :=
  ⟨400, JVal.obj [("ok", JVal.bool false), ("message", JVal.str "Invalid input"), ("errors", issuesToJVal issues)]⟩

/-- The success body of the three req-validate handlers: exactly id and
salt, nothing else (status 200, the c.json default). -/
def respIdSalt (id salt : String) : HttpResponse :=
  ⟨200, JVal.obj [("id", JVal.str id), ("salt", JVal.str salt)]⟩

/-- The 404 body shared by the GET and DELETE req-validate handlers. -/
def resp404 (org : String) : HttpResponse :=
  ⟨404, JVal.obj [("ok", JVal.bool false),
    ("message", JVal.str ("No data found for organization: " ++ org)),
    ("errors", JVal.arr [JVal.str "Organization not found"])]⟩

/-- The 500 body of the POST req-validate handler's catch. -/
def resp500Create (m : String) : HttpResponse :=
  ⟨500, JVal.obj [("ok", JVal.bool false), ("message", JVal.str "Validation failed"),
    ("errors", JVal.arr [JVal.str m])]⟩

/-- The 500 body of the GET req-validate handler's catch. -/
def resp500Fetch (m : String) : HttpResponse :=
  ⟨500, JVal.obj [("ok", JVal.bool false), ("message", JVal.str "Failed to fetch request"),
    ("errors", JVal.arr [JVal.str m])]⟩

/-- The 500 body of the DELETE req-validate handler's catch. -/
def resp500Delete (m : String) : HttpResponse :=
  ⟨500, JVal.obj [("ok", JVal.bool false), ("message", JVal.str "Failed to delete request"),
    ("errors", JVal.arr [JVal.str m])]⟩

/-- The message of the SyntaxError JSON.parse throws on malformed input. -/
def jsonSyntaxErrorMsg : String := "Unexpected token in JSON"

/-- The composite key of the create handler (part_000, line 174). -/
def makeKey (org id ts : String) : String :=
  org ++ ":" ++ id ++ ":" ++ ts

/-- POST /api/:org/req-validate handler body (part_000, lines 167-194):
build the composite key from a fresh timestamp, put the serialized record,
answer with exactly id and salt; a throwing put lands in the catch, a 500
carrying the error's message in the errors array. -/
def createReqValidate (st : KV) (org : String) (data : ValidateRequest) (ts : String) :
    KV × HttpResponse :=
  let key := makeKey org data.id ts
  match st.put key (KVValue.record ⟨org, data.id, data.salt, ts⟩) with
  | Except.ok st2 => (st2, respIdSalt data.id data.salt)
  | Except.error m => (st, resp500Create m)

/-- POST /api/:org/req-validate with its validator('json') gate. -/
def postReqValidateRoute (st : KV) (org : String) (body : JVal) (ts : String) :
    KV × HttpResponse :=
  match safeParseValidateRequest body with
  | Except.error issues => (st, respInvalid issues)
  | Except.ok data => createReqValidate st org data ts

/-- GET /api/:org/req-validate handler (part_000, lines 197-229): list keys
with prefix org:, take the last; the fetched value is guarded by the
truthiness test if (value), so a missing value and a falsy (empty-string)
value both fall through to the 404; a truthy value that parses answers
with its id and salt; a truthy value JSON.parse throws on lands in the
catch, a 500. -/
def getReqValidate (st : KV) (org : String) : HttpResponse :=
  match st.listKeys (org ++ ":") with
  | Except.error m => resp500Fetch m
  | Except.ok keys =>
    match keys.getLast? with
    | none => resp404 org
    | some lastKey =>
      match st.getVal lastKey with
      | Except.error m => resp500Fetch m
      | Except.ok none => resp404 org
      | Except.ok (some v) =>
        if v.truthy then
          match parseStored v with
          | some r => respIdSalt r.id r.salt
          | none => resp500Fetch jsonSyntaxErrorMsg
        else resp404 org

/-- DELETE /api/:org/req-validate handler body (part_000, lines 242-276):
list keys with prefix org:id:, delete them all when there are any and echo
the request's id and salt, else 404. -/
def deleteReqValidate (st : KV) (org : String) (data : ValidateRequest) :
    KV × HttpResponse :=
  match st.listKeys (org ++ ":" ++ data.id ++ ":") with
  | Except.error m => (st, resp500Delete m)
  | Except.ok keys =>
    if keys.isEmpty then (st, resp404 org)
    else
      match st.delAll keys with
      | Except.error m => (st, resp500Delete m)
      | Except.ok st2 => (st2, respIdSalt data.id data.salt)

/-- DELETE /api/:org/req-validate with its validator('json') gate. -/
def deleteReqValidateRoute (st : KV) (org : String) (body : JVal) :
    KV × HttpResponse :=
  match safeParseValidateRequest body with
  | Except.error issues => (st, respInvalid issues)
  | Except.ok data => deleteReqValidate st org data

/-- A Post record as the stub handlers fabricate it. -/
structure Post where
  id : String
  title : String
  content : String
  createdAt : String
  updatedAt : String
deriving DecidableEq

/-- A Post rendered into a JSON body. -/
def postToJVal (p : Post) : JVal :=
  JVal.obj [("id", JVal.str p.id), ("title", JVal.str p.title), ("content", JVal.str p.content),
    ("createdAt", JVal.str p.createdAt), ("updatedAt", JVal.str p.updatedAt)]

/-- POST /posts handler body (both variants, stub): fabricate a post from
the validated payload, the generated UUID and the two new
Date().toISOString() reads (createdAt from the first, updatedAt from the
second); nothing is stored. -/
def createPost (data : PostPayload) (uuid : String) (now1 now2 : String) : HttpResponse :=
  let post : Post := ⟨uuid, data.title, data.content, now1, now2⟩
  ⟨201, JVal.obj [("ok", JVal.bool true), ("post", postToJVal post)]⟩

/-- POST /posts with its validator('json') gate. -/
def postPostsRoute (body : JVal) (uuid : String) (now1 now2 : String) : HttpResponse :=
  match safeParsePost body with
  | Except.error issues => respInvalid issues
  | Except.ok data => createPost data uuid now1 now2

/-- GET /posts (stub): always the empty collection. -/
def getPosts : HttpResponse :=
  ⟨200, JVal.obj [("ok", JVal.bool true), ("posts", JVal.arr [])]⟩

/-- GET /posts/:id (stub): always a null post, whatever the id. -/
def getPostById (_id : String) : HttpResponse :=
  ⟨200, JVal.obj [("ok", JVal.bool true), ("post", JVal.null)]⟩

/-- The reduced variant's POST /api/:org/req-validate handler body
(src/index.ts, lines 163-179): no storage call at all, only the echo of the
validated payload. -/
def createReqValidateV2 (data : ValidateRequest) : HttpResponse :=
  respIdSalt data.id data.salt

/-- The reduced variant's POST /api/:org/req-validate with its
validator('json') gate. -/
def postReqValidateRouteV2 (body : JVal) : HttpResponse :=
  match safeParseValidateRequest body with
  | Except.error issues => respInvalid issues
  | Except.ok data => createReqValidateV2 data

/-- The route table of the full variant (part_000): each app.method call in
registration order. -/
def routesPart000 : List (String × String) :=
  [("POST", "/posts"), ("GET", "/posts"), ("GET", "/posts/:id"), ("PUT", "/posts/:id"),
    ("DELETE", "/posts/:id"), ("POST", "/api/:org/req-validate"),
    ("GET", "/api/:org/req-validate"), ("DELETE", "/api/:org/req-validate"),
    ("GET", "/api/health")]

/-- The route table of the reduced variant (src/index.ts). -/
def routesIndexTs : List (String × String) :=
  [("POST", "/posts"), ("GET", "/posts"), ("GET", "/posts/:id"), ("PUT", "/posts/:id"),
    ("DELETE", "/posts/:id"), ("POST", "/api/:org/req-validate"), ("GET", "/api/health")]

/-- A calendar instant as new Date() captures it: the UTC components that
Date.prototype.toISOString renders. -/
structure Timestamp where
  year : Nat
  month : Nat
  day : Nat
  hour : Nat
  minute : Nat
  second : Nat
  millis : Nat
deriving DecidableEq

/-- The component bounds of an instant toISOString renders in its fixed
24-character form (year 0000-9999). -/
def Timestamp.wf (t : Timestamp) : Prop :=
  t.year < 10000 ∧ 1 ≤ t.month ∧ t.month ≤ 12 ∧ 1 ≤ t.day ∧ t.day ≤ 31 ∧
    t.hour < 24 ∧ t.minute < 60 ∧ t.second < 60 ∧ t.millis < 1000

/-- Chronological order of two instants: lexicographic on the calendar
components, most significant first. -/
def chronoLt (a b : Timestamp) : Prop :=
  a.year < b.year ∨ (a.year = b.year ∧ (a.month < b.month ∨ (a.month = b.month ∧
    (a.day < b.day ∨ (a.day = b.day ∧ (a.hour < b.hour ∨ (a.hour = b.hour ∧
    (a.minute < b.minute ∨ (a.minute = b.minute ∧ (a.second < b.second ∨
    (a.second = b.second ∧ a.millis < b.millis)))))))))))

/-- A decimal digit rendered as its character. -/
def decDigit (d : Nat) : Char :=
  match d with
  | 0 => '0' | 1 => '1' | 2 => '2' | 3 => '3' | 4 => '4'
  | 5 => '5' | 6 => '6' | 7 => '7' | 8 => '8' | _ => '9'

/-- n rendered as exactly k zero-padded decimal digits, most significant
first (faithful for n < 10 ^ k). -/
def padDigits : Nat → Nat → List Char
  | 0, _ => []
  | k + 1, n => decDigit (n / 10 ^ k) :: padDigits k (n % 10 ^ k)

/-- The character sequence Date.prototype.toISOString produces:
YYYY-MM-DDTHH:mm:ss.sssZ. -/
def isoChars (t : Timestamp) : List Char :=
  padDigits 4 t.year ++ '-' :: (padDigits 2 t.month ++ '-' :: (padDigits 2 t.day ++
    'T' :: (padDigits 2 t.hour ++ ':' :: (padDigits 2 t.minute ++
    ':' :: (padDigits 2 t.second ++ '.' :: (padDigits 3 t.millis ++ ['Z']))))))

/-- Date.prototype.toISOString of an instant. -/
def Timestamp.toISO (t : Timestamp) : String :=
  ⟨isoChars t⟩

/-- The keys the GET handler lists for an organization on a healthy store. -/
def orgScan (l : List (String × KVValue)) (org : String) : List String :=
  sortKeys ((l.map Prod.fst).filter (fun k => strHasPrefix (org ++ ":") k))

/-- The payloads postSchema accepts: an object whose title field is a
string of 1-100 characters and whose content field is a string of 1-1000
characters (other fields are irrelevant: z.object strip mode). -/
def postPayloadOk (v : JVal) : Prop :=
  ∃ fields t c, v = JVal.obj fields
    ∧ lookupField fields "title" = some (JVal.str t) ∧ 1 ≤ t.length ∧ t.length ≤ 100
    ∧ lookupField fields "content" = some (JVal.str c) ∧ 1 ≤ c.length ∧ c.length ≤ 1000

/-- The payloads validateRequestSchema accepts: an object whose id field is
a non-empty string and whose salt field is a string of at least 6
characters. -/
def validateReqPayloadOk (v : JVal) : Prop :=
  ∃ fields i s, v = JVal.obj fields
    ∧ lookupField fields "id" = some (JVal.str i) ∧ 1 ≤ i.length
    ∧ lookupField fields "salt" = some (JVal.str s) ∧ 6 ≤ s.length

/- ===== Order lemmas: the executable key comparison agrees with the
lexicographic String order ===== -/

/-- Cons characterization of the lexicographic order on character lists. -/
lemma charLex_cons_iff (a b : Char) (l1 l2 : List Char) :
    (a :: l1) < (b :: l2) ↔ a < b ∨ (a = b ∧ l1 < l2) := by
  show List.Lex _ _ _ ↔ _
  constructor
  · intro h
    cases h with
    | cons h => exact Or.inr ⟨rfl, h⟩
    | rel h => exact Or.inl h
  · intro h
    rcases h with h | ⟨rfl, h⟩
    · exact List.Lex.rel h
    · exact List.Lex.cons h

/-- Appending after segments of equal length: lexicographic comparison
decides on the segments first someone. -/
lemma charList_append_lt_iff : ∀ (xs ys as bs : List Char), xs.length = ys.length →
    (xs ++ as < ys ++ bs ↔ xs < ys ∨ (xs = ys ∧ as < bs))
  | [], [], as, bs, _ => by
    rw [List.nil_append, List.nil_append]
    constructor
    · intro h
      exact Or.inr ⟨rfl, h⟩
    · intro h
      rcases h with h | ⟨-, h⟩
      · exact absurd h (lt_irrefl _)
      · exact h
  | [], y :: ys, as, bs, h => by simp at h
  | x :: xs, [], as, bs, h => by simp at h
  | x :: xs, y :: ys, as, bs, h => by
    have hlen : xs.length = ys.length := by simpa using h
    rw [List.cons_append, List.cons_append, charLex_cons_iff, charLex_cons_iff,
      charList_append_lt_iff xs ys as bs hlen]
    simp only [List.cons.injEq]
    tauto

/-- charListLe is the Boolean form of the lexicographic less-or-equal. -/
lemma charListLe_iff : ∀ (a b : List Char), charListLe a b = true ↔ ¬ b < a
  | [], b => by
    constructor
    · intro _
      exact List.Lex.not_nil_right _ _
    · intro _
      rfl
  | x :: xs, [] => by
    constructor
    · intro h
      simp [charListLe] at h
    · intro h
      exact absurd (List.nil_lt_cons x xs) h
  | x :: xs, y :: ys => by
    rw [charLex_cons_iff]
    rcases lt_trichotomy x y with h | h | h
    · simp [charListLe, h, lt_asymm h, h.ne']
    · subst h
      simp [charListLe, lt_irrefl, charListLe_iff xs ys]
    · simp [charListLe, h, lt_asymm h]

/-- keyLe is the Boolean form of the String linear order. -/
lemma keyLe_iff {a b : String} : keyLe a b = true ↔ a ≤ b := by
  rw [keyLe, charListLe_iff, ← String.lt_iff_toList_lt, not_lt]

/- ===== Sorting lemmas ===== -/

lemma insertKey_perm (k : String) : ∀ (l : List String), List.Perm (insertKey k l) (k :: l)
  | [] => List.Perm.refl _
  | x :: xs => by
    rw [insertKey]
    by_cases h : keyLe k x = true
    · rw [if_pos h]
    · rw [if_neg h]
      exact ((insertKey_perm k xs).cons x).trans (List.Perm.swap k x xs)

lemma sortKeys_perm : ∀ (l : List String), List.Perm (sortKeys l) l
  | [] => List.Perm.refl _
  | k :: ks => (insertKey_perm k (sortKeys ks)).trans ((sortKeys_perm ks).cons k)

lemma mem_sortKeys {x : String} {l : List String} : x ∈ sortKeys l ↔ x ∈ l :=
  (sortKeys_perm l).mem_iff

lemma mem_insertKey {x k : String} {l : List String} : x ∈ insertKey k l ↔ x = k ∨ x ∈ l := by
  rw [(insertKey_perm k l).mem_iff, List.mem_cons]

lemma insertKey_sorted (k : String) : ∀ (l : List String), l.Sorted (· ≤ ·) →
    (insertKey k l).Sorted (· ≤ ·)
  | [], _ => List.sorted_singleton k
  | x :: xs, h => by
    rw [insertKey]
    rcases List.sorted_cons.mp h with ⟨hx, hxs⟩
    by_cases hk : keyLe k x = true
    · rw [if_pos hk]
      refine List.sorted_cons.mpr ⟨?_, h⟩
      intro b hb
      rcases List.mem_cons.mp hb with rfl | hb
      · exact keyLe_iff.mp hk
      · exact le_trans (keyLe_iff.mp hk) (hx b hb)
    · rw [if_neg hk]
      refine List.sorted_cons.mpr ⟨?_, insertKey_sorted k xs hxs⟩
      intro b hb
      rcases mem_insertKey.mp hb with rfl | hb
      · exact le_of_not_le (fun hle => hk (keyLe_iff.mpr hle))
      · exact hx b hb

lemma sortKeys_sorted : ∀ (l : List String), (sortKeys l).Sorted (· ≤ ·)
  | [] => List.sorted_nil
  | k :: ks => insertKey_sorted k (sortKeys ks) (sortKeys_sorted ks)

/-- In a list sorted by less-or-equal, an upper bound belonging to the list
is its last element. -/
lemma sorted_getLast?_eq : ∀ (l : List String), l.Sorted (· ≤ ·) →
    ∀ (x : String), x ∈ l → (∀ y ∈ l, y ≤ x) → l.getLast? = some x
  | [], _, x, hx, _ => absurd hx (List.not_mem_nil x)
  | [a], _, x, hx, hmax => by
    rw [List.mem_singleton.mp hx]
    rfl
  | a :: b :: t, hs, x, hx, hmax => by
    rw [List.getLast?_cons_cons]
    have htail : (b :: t).Sorted (· ≤ ·) := hs.of_cons
    have hmax' : ∀ y ∈ b :: t, y ≤ x := fun y hy => hmax y (List.mem_cons_of_mem a hy)
    rcases List.mem_cons.mp hx with rfl | hmem
    · have hab : x ≤ b := List.rel_of_sorted_cons hs b (List.mem_cons_self b t)
      have hba : b ≤ x := hmax b (List.mem_cons_of_mem x (List.mem_cons_self b t))
      have : x = b := le_antisymm hab hba
      exact sorted_getLast?_eq (b :: t) htail x (this ▸ List.mem_cons_self b t) hmax'
    · exact sorted_getLast?_eq (b :: t) htail x hmem hmax'

/-- The last key of a lexicographically sorted listing is the maximum. -/
lemma sortKeys_getLast? (l : List String) (x : String) (hx : x ∈ l)
    (hmax : ∀ y ∈ l, y ≤ x) : (sortKeys l).getLast? = some x :=
  sorted_getLast?_eq (sortKeys l) (sortKeys_sorted l) x (mem_sortKeys.mpr hx)
    (fun y hy => hmax y (mem_sortKeys.mp hy))

/- ===== Association-list lemmas for the KV entries ===== -/

/-- Filtering by a predicate implied by the search predicate does not change
the first hit. -/
lemma find?_filter_of_imp {α : Type} (p q : α → Bool) :
    ∀ (l : List α), (∀ e, q e = true → p e = true) → (l.filter p).find? q = l.find? q
  | [], _ => rfl
  | a :: l, h => by
    by_cases hq : q a = true
    · rw [List.filter_cons, if_pos (h a hq), List.find?_cons_of_pos _ hq,
        List.find?_cons_of_pos _ hq]
    · rw [List.filter_cons]
      by_cases hp : p a = true
      · rw [if_pos hp, List.find?_cons_of_neg _ hq, List.find?_cons_of_neg _ hq]
        exact find?_filter_of_imp p q l h
      · rw [if_neg hp, List.find?_cons_of_neg _ hq]
        exact find?_filter_of_imp p q l h

/-- After a put, the written key reads back the written value. -/
lemma lookupEntry_put_self (l : List (String × KVValue)) (k : String) (v : KVValue) :
    lookupEntry ((l.filter (fun e => !(e.fst == k))) ++ [(k, v)]) k = some v := by
  unfold lookupEntry
  rw [List.find?_append]
  have h1 : (l.filter (fun e => !(e.fst == k))).find? (fun e => e.fst == k) = none := by
    rw [List.find?_eq_none]
    intro e he
    have := (List.mem_filter.mp he).2
    simp only [Bool.not_eq_true'] at this
    simp [this]
  rw [h1]
  simp [List.find?]

/-- After a put, every other key reads back what it read before. -/
lemma lookupEntry_put_other (l : List (String × KVValue)) (k : String) (v : KVValue)
    (k' : String) (h : k' ≠ k) :
    lookupEntry ((l.filter (fun e => !(e.fst == k))) ++ [(k, v)]) k' = lookupEntry l k' := by
  unfold lookupEntry
  rw [List.find?_append]
  have h2 : List.find? (fun e => e.fst == k') [(k, v)] = none := by
    have hkk : (k == k') = false := beq_eq_false_iff_ne.mpr (Ne.symm h)
    simp [List.find?, hkk]
  rw [h2, Option.or_none, find?_filter_of_imp]
  intro e he
  have : e.fst = k' := by simpa using he
  simp [this, h]

/-- Keys a filter removed no longer read back. -/
lemma lookupEntry_filter_none (l : List (String × KVValue)) (p : Prod String KVValue → Bool)
    (k : String) (h : ∀ e, e.fst = k → p e = false) :
    lookupEntry (l.filter p) k = none := by
  unfold lookupEntry
  have : (l.filter p).find? (fun e => e.fst == k) = none := by
    rw [List.find?_eq_none]
    intro e he
    intro hk
    have hek : e.fst = k := by simpa using hk
    have := (List.mem_filter.mp he).2
    rw [h e hek] at this
    cases this
  rw [this]
  rfl

/-- Keys a filter kept read back unchanged. -/
lemma lookupEntry_filter_keep (l : List (String × KVValue)) (p : Prod String KVValue → Bool)
    (k : String) (h : ∀ e, e.fst = k → p e = true) :
    lookupEntry (l.filter p) k = lookupEntry l k := by
  unfold lookupEntry
  rw [find?_filter_of_imp]
  intro e he
  exact h e (by simpa using he)

/-- Deleting a list of keys from a healthy store filters exactly those keys
out of the entries. -/
lemma delAll_ok : ∀ (ks : List String) (l : List (String × KVValue)),
    KV.delAll ⟨l, none⟩ ks = Except.ok ⟨l.filter (fun e => !(ks.contains e.fst)), none⟩
  | [], l => by
    simp [KV.delAll, List.filter_true]
  | k :: ks, l => by
    rw [KV.delAll]
    show KV.delAll ⟨l.filter (fun e => !(e.fst == k)), none⟩ ks = _
    rw [delAll_ok ks (l.filter (fun e => !(e.fst == k))), List.filter_filter]
    have hpred : (fun (e : String × KVValue) => !ks.contains e.fst && !(e.fst == k))
        = (fun e => !((k :: ks).contains e.fst)) := by
      funext e
      rw [List.contains_cons]
      cases hek : e.fst == k <;> cases hks : ks.contains e.fst <;> simp [hek, hks]
    rw [hpred]

/- ===== String prefix and key-order lemmas ===== -/

/-- A string prefixes its own extensions. -/
lemma strHasPrefix_append (p s : String) : strHasPrefix p (p ++ s) = true := by
  unfold strHasPrefix
  rw [List.isPrefixOf_iff_prefix]
  show p.toList <+: (p ++ s).toList
  rw [show (p ++ s).toList = p.toList ++ s.toList from String.data_append p s]
  exact List.prefix_append _ _

/-- Appending to a common front cancels in the lexicographic String order. -/
lemma string_append_lt_iff (p a b : String) : p ++ a < p ++ b ↔ a < b := by
  rw [String.lt_iff_toList_lt, String.lt_iff_toList_lt,
    show (p ++ a).toList = p.toList ++ a.toList from String.data_append p a,
    show (p ++ b).toList = p.toList ++ b.toList from String.data_append p b,
    charList_append_lt_iff _ _ _ _ rfl]
  constructor
  · intro h
    rcases h with h | ⟨-, h⟩
    · exact absurd h (lt_irrefl _)
    · exact h
  · intro h
    exact Or.inr ⟨rfl, h⟩

/-- Composite keys with the same organization and identifier compare by
their timestamp suffix. -/
lemma makeKey_lt_iff (org id t1 t2 : String) :
    makeKey org id t1 < makeKey org id t2 ↔ t1 < t2 :=
  string_append_lt_iff (org ++ ":" ++ id ++ ":") t1 t2

/-- Every composite key of an organization carries the organization scan
marker as a prefix. -/
lemma strHasPrefix_org_makeKey (org id t : String) :
    strHasPrefix (org ++ ":") (makeKey org id t) = true := by
  rw [show makeKey org id t = (org ++ ":") ++ (id ++ ":" ++ t) by
    simp [makeKey, String.append_assoc]]
  exact strHasPrefix_append _ _

/-- Every composite key carries the deletion scan marker of its
organization and identifier as a prefix. -/
lemma strHasPrefix_orgId_makeKey (org id t : String) :
    strHasPrefix (org ++ ":" ++ id ++ ":") (makeKey org id t) = true :=
  strHasPrefix_append (org ++ ":" ++ id ++ ":") t

/- ===== Decimal rendering preserves order ===== -/

lemma decDigit_lt_iff_aux : ∀ d1 < 10, ∀ d2 < 10, (decDigit d1 < decDigit d2 ↔ d1 < d2) := by
  decide

lemma decDigit_inj_aux : ∀ d1 < 10, ∀ d2 < 10, (decDigit d1 = decDigit d2 ↔ d1 = d2) := by
  decide

lemma padDigits_length : ∀ (k n : Nat), (padDigits k n).length = k
  | 0, _ => rfl
  | k + 1, n => by rw [padDigits, List.length_cons, padDigits_length k]

/-- Base-B digit split of the strict order on natural numbers. -/
lemma split_lt_iff (B q1 r1 q2 r2 : Nat) (h1 : r1 < B) (h2 : r2 < B) :
    B * q1 + r1 < B * q2 + r2 ↔ q1 < q2 ∨ (q1 = q2 ∧ r1 < r2) := by
  constructor
  · intro h
    rcases Nat.lt_trichotomy q1 q2 with hq | hq | hq
    · exact Or.inl hq
    · subst hq
      exact Or.inr ⟨rfl, Nat.lt_of_add_lt_add_left h⟩
    · exfalso
      have hlt : B * q2 + r2 < B * q1 + r1 := by
        calc B * q2 + r2 < B * q2 + B := Nat.add_lt_add_left h2 _
          _ = B * (q2 + 1) := (Nat.mul_succ B q2).symm
          _ ≤ B * q1 := Nat.mul_le_mul le_rfl (Nat.succ_le_of_lt hq)
          _ ≤ B * q1 + r1 := Nat.le_add_right _ _
      exact lt_asymm h hlt
  · intro h
    rcases h with hq | ⟨hq, hr⟩
    · calc B * q1 + r1 < B * q1 + B := Nat.add_lt_add_left h1 _
        _ = B * (q1 + 1) := (Nat.mul_succ B q1).symm
        _ ≤ B * q2 := Nat.mul_le_mul le_rfl (Nat.succ_le_of_lt hq)
        _ ≤ B * q2 + r2 := Nat.le_add_right _ _
    · subst hq
      exact Nat.add_lt_add_left hr _

/-- Zero-padded fixed-width decimal rendering preserves the strict order. -/
lemma padDigits_lt_iff : ∀ (k n1 n2 : Nat), n1 < 10 ^ k → n2 < 10 ^ k →
    (padDigits k n1 < padDigits k n2 ↔ n1 < n2)
  | 0, n1, n2, h1, h2 => by
    have e1 : n1 = 0 := Nat.lt_one_iff.mp (by simpa using h1)
    have e2 : n2 = 0 := Nat.lt_one_iff.mp (by simpa using h2)
    subst e1
    subst e2
    exact iff_of_false (lt_irrefl _) (lt_irrefl _)
  | k + 1, n1, n2, h1, h2 => by
    have hp : 0 < 10 ^ k := pow_pos (by norm_num) k
    have hd1 : n1 / 10 ^ k < 10 := (Nat.div_lt_iff_lt_mul hp).mpr (by rw [mul_comm, ← pow_succ]; exact h1)
    have hd2 : n2 / 10 ^ k < 10 := (Nat.div_lt_iff_lt_mul hp).mpr (by rw [mul_comm, ← pow_succ]; exact h2)
    show decDigit (n1 / 10 ^ k) :: padDigits k (n1 % 10 ^ k) <
        decDigit (n2 / 10 ^ k) :: padDigits k (n2 % 10 ^ k) ↔ n1 < n2
    rw [charLex_cons_iff, decDigit_lt_iff_aux _ hd1 _ hd2, decDigit_inj_aux _ hd1 _ hd2,
      padDigits_lt_iff k _ _ (Nat.mod_lt _ hp) (Nat.mod_lt _ hp),
      ← split_lt_iff (10 ^ k) _ _ _ _ (Nat.mod_lt _ hp) (Nat.mod_lt _ hp),
      Nat.div_add_mod, Nat.div_add_mod]

/-- A strictly smaller leading number makes the whole rendering smaller. -/
lemma pad_seg_lt (k n1 n2 : Nat) (r1 r2 : List Char) (h1 : n1 < 10 ^ k) (h2 : n2 < 10 ^ k)
    (h : n1 < n2) : padDigits k n1 ++ r1 < padDigits k n2 ++ r2 := by
  rw [charList_append_lt_iff _ _ _ _ (by rw [padDigits_length, padDigits_length])]
  exact Or.inl ((padDigits_lt_iff k n1 n2 h1 h2).mpr h)

/-- Equal leading number and separator: comparison moves to the tails. -/
lemma pad_seg_eq (k n : Nat) (c : Char) (r1 r2 : List Char) (h : r1 < r2) :
    padDigits k n ++ c :: r1 < padDigits k n ++ c :: r2 := by
  rw [charList_append_lt_iff _ _ _ _ rfl, charLex_cons_iff]
  exact Or.inr ⟨rfl, Or.inr ⟨rfl, h⟩⟩

/-- Chronologically earlier instants render to lexicographically smaller
ISO strings. -/
lemma isoChars_lt_of_chronoLt (a b : Timestamp) (ha : a.wf) (hb : b.wf) (h : chronoLt a b) :
    isoChars a < isoChars b := by
  obtain ⟨ha1, -, ha3, -, ha5, ha6, ha7, ha8, ha9⟩ := ha
  obtain ⟨hb1, -, hb3, -, hb5, hb6, hb7, hb8, hb9⟩ := hb
  have e4 : (10:Nat) ^ 4 = 10000 := by norm_num
  have e2 : (10:Nat) ^ 2 = 100 := by norm_num
  have e3 : (10:Nat) ^ 3 = 1000 := by norm_num
  unfold isoChars
  rcases h with hc | ⟨hy, h⟩
  · exact pad_seg_lt 4 _ _ _ _ (by omega) (by omega) hc
  · rw [hy]
    apply pad_seg_eq
    rcases h with hc | ⟨hmo, h⟩
    · exact pad_seg_lt 2 _ _ _ _ (by omega) (by omega) hc
    · rw [hmo]
      apply pad_seg_eq
      rcases h with hc | ⟨hd, h⟩
      · exact pad_seg_lt 2 _ _ _ _ (by omega) (by omega) hc
      · rw [hd]
        apply pad_seg_eq
        rcases h with hc | ⟨hh, h⟩
        · exact pad_seg_lt 2 _ _ _ _ (by omega) (by omega) hc
        · rw [hh]
          apply pad_seg_eq
          rcases h with hc | ⟨hmi, h⟩
          · exact pad_seg_lt 2 _ _ _ _ (by omega) (by omega) hc
          · rw [hmi]
            apply pad_seg_eq
            rcases h with hc | ⟨hs, hms⟩
            · exact pad_seg_lt 2 _ _ _ _ (by omega) (by omega) hc
            · rw [hs]
              apply pad_seg_eq
              exact pad_seg_lt 3 _ _ _ _ (by omega) (by omega) hms

/-- The chronological order is trichotomous on instants. -/
lemma chronoLt_trichotomy (a b : Timestamp) : chronoLt a b ∨ a = b ∨ chronoLt b a := by
  obtain ⟨y1, mo1, d1, h1, mi1, s1, ms1⟩ := a
  obtain ⟨y2, mo2, d2, h2, mi2, s2, ms2⟩ := b
  simp only [chronoLt, Timestamp.mk.injEq]
  omega

/-- toISOString turns the chronological order of instants into the
lexicographic order of strings, and conversely. -/
lemma toISO_lt_iff (a b : Timestamp) (ha : a.wf) (hb : b.wf) :
    Timestamp.toISO a < Timestamp.toISO b ↔ chronoLt a b := by
  constructor
  · intro h
    rcases chronoLt_trichotomy a b with hc | hc | hc
    · exact hc
    · subst hc
      exact absurd h (lt_irrefl _)
    · have hba := isoChars_lt_of_chronoLt b a hb ha hc
      rw [String.lt_iff_toList_lt] at h
      exact absurd h (lt_asymm hba)
  · intro h
    rw [String.lt_iff_toList_lt]
    exact isoChars_lt_of_chronoLt a b ha hb h

/- ===== Handler-level helper lemmas ===== -/

/-- The create handler on a healthy store, entries written out. -/
lemma createReqValidate_ok (l : List (String × KVValue)) (org : String) (d : ValidateRequest)
    (ts : String) :
    createReqValidate ⟨l, none⟩ org d ts =
      (⟨(l.filter (fun e => !(e.fst == makeKey org d.id ts))) ++
          [(makeKey org d.id ts, KVValue.record ⟨org, d.id, d.salt, ts⟩)], none⟩,
        respIdSalt d.id d.salt) := rfl

/-- The GET handler answers 404 when the organization scan is empty. -/
lemma getReqValidate_empty (l : List (String × KVValue)) (org : String)
    (h : orgScan l org = []) : getReqValidate ⟨l, none⟩ org = resp404 org := by
  unfold getReqValidate KV.listKeys
  show (match (orgScan l org).getLast? with
    | none => resp404 org
    | some lastKey =>
      match (KV.getVal ⟨l, none⟩ lastKey : Except String (Option KVValue)) with
      | Except.error m => resp500Fetch m
      | Except.ok none => resp404 org
      | Except.ok (some v) =>
        if v.truthy then
          match parseStored v with
          | some r => respIdSalt r.id r.salt
          | none => resp500Fetch jsonSyntaxErrorMsg
        else resp404 org) = resp404 org
  rw [h]
  rfl

/-- The GET handler answers the stored id and salt when the last listed key
holds a record (JSON.stringify output is truthy and parses back). -/
lemma getReqValidate_found (l : List (String × KVValue)) (org lastKey : String)
    (r : StoredRecord) (hlast : (orgScan l org).getLast? = some lastKey)
    (hget : lookupEntry l lastKey = some (KVValue.record r)) :
    getReqValidate ⟨l, none⟩ org = respIdSalt r.id r.salt := by
  have hv : KV.getVal ⟨l, none⟩ lastKey = Except.ok (some (KVValue.record r)) := by
    show Except.ok (lookupEntry l lastKey) = _
    rw [hget]
  unfold getReqValidate KV.listKeys
  show (match (orgScan l org).getLast? with
    | none => resp404 org
    | some lastKey =>
      match (KV.getVal ⟨l, none⟩ lastKey : Except String (Option KVValue)) with
      | Except.error m => resp500Fetch m
      | Except.ok none => resp404 org
      | Except.ok (some v) =>
        if v.truthy then
          match parseStored v with
          | some r => respIdSalt r.id r.salt
          | none => resp500Fetch jsonSyntaxErrorMsg
        else resp404 org) = respIdSalt r.id r.salt
  rw [hlast]
  show (match (KV.getVal ⟨l, none⟩ lastKey : Except String (Option KVValue)) with
    | Except.error m => resp500Fetch m
    | Except.ok none => resp404 org
    | Except.ok (some v) =>
      if v.truthy then
        match parseStored v with
        | some r => respIdSalt r.id r.salt
        | none => resp500Fetch jsonSyntaxErrorMsg
      else resp404 org) = respIdSalt r.id r.salt
  rw [hv]
  rfl

/-- The GET handler lands in the catch with a 500 when the last listed key
holds a truthy (non-empty) value JSON.parse throws on. -/
lemma getReqValidate_raw (l : List (String × KVValue)) (org lastKey s : String)
    (hlast : (orgScan l org).getLast? = some lastKey)
    (hget : lookupEntry l lastKey = some (KVValue.raw s)) (hs : s ≠ "") :
    getReqValidate ⟨l, none⟩ org = resp500Fetch jsonSyntaxErrorMsg := by
  have hv : KV.getVal ⟨l, none⟩ lastKey = Except.ok (some (KVValue.raw s)) := by
    show Except.ok (lookupEntry l lastKey) = _
    rw [hget]
  have hb : (s == "") = false := beq_eq_false_iff_ne.mpr hs
  unfold getReqValidate KV.listKeys
  show (match (orgScan l org).getLast? with
    | none => resp404 org
    | some lastKey =>
      match (KV.getVal ⟨l, none⟩ lastKey : Except String (Option KVValue)) with
      | Except.error m => resp500Fetch m
      | Except.ok none => resp404 org
      | Except.ok (some v) =>
        if v.truthy then
          match parseStored v with
          | some r => respIdSalt r.id r.salt
          | none => resp500Fetch jsonSyntaxErrorMsg
        else resp404 org) = resp500Fetch jsonSyntaxErrorMsg
  rw [hlast]
  show (match (KV.getVal ⟨l, none⟩ lastKey : Except String (Option KVValue)) with
    | Except.error m => resp500Fetch m
    | Except.ok none => resp404 org
    | Except.ok (some v) =>
      if v.truthy then
        match parseStored v with
        | some r => respIdSalt r.id r.salt
        | none => resp500Fetch jsonSyntaxErrorMsg
      else resp404 org) = resp500Fetch jsonSyntaxErrorMsg
  rw [hv]
  show (if (!(s == "")) = true then
      match parseStored (KVValue.raw s) with
      | some r => respIdSalt r.id r.salt
      | none => resp500Fetch jsonSyntaxErrorMsg
    else resp404 org) = resp500Fetch jsonSyntaxErrorMsg
  rw [hb]
  rfl

/-- The GET handler falls through to the 404 when the last listed key holds
the empty string: a falsy value, so the if (value) guard skips JSON.parse
entirely. -/
lemma getReqValidate_falsy (l : List (String × KVValue)) (org lastKey : String)
    (hlast : (orgScan l org).getLast? = some lastKey)
    (hget : lookupEntry l lastKey = some (KVValue.raw "")) :
    getReqValidate ⟨l, none⟩ org = resp404 org := by
  have hv : KV.getVal ⟨l, none⟩ lastKey = Except.ok (some (KVValue.raw "")) := by
    show Except.ok (lookupEntry l lastKey) = _
    rw [hget]
  unfold getReqValidate KV.listKeys
  show (match (orgScan l org).getLast? with
    | none => resp404 org
    | some lastKey =>
      match (KV.getVal ⟨l, none⟩ lastKey : Except String (Option KVValue)) with
      | Except.error m => resp500Fetch m
      | Except.ok none => resp404 org
      | Except.ok (some v) =>
        if v.truthy then
          match parseStored v with
          | some r => respIdSalt r.id r.salt
          | none => resp500Fetch jsonSyntaxErrorMsg
        else resp404 org) = resp404 org
  rw [hlast]
  show (match (KV.getVal ⟨l, none⟩ lastKey : Except String (Option KVValue)) with
    | Except.error m => resp500Fetch m
    | Except.ok none => resp404 org
    | Except.ok (some v) =>
      if v.truthy then
        match parseStored v with
        | some r => respIdSalt r.id r.salt
        | none => resp500Fetch jsonSyntaxErrorMsg
      else resp404 org) = resp404 org
  rw [hv]
  rfl

/-- A sorted scan is empty exactly when no stored key matches. -/
lemma sortKeys_eq_nil_iff {l : List String} : sortKeys l = [] ↔ l = [] := by
  constructor
  · intro h
    have hp := sortKeys_perm l
    rw [h] at hp
    exact hp.symm.eq_nil
  · intro h
    rw [h]
    rfl

/-- A key absent from the entries reads back nothing. -/
lemma lookupEntry_eq_none_of_not_mem (l : List (String × KVValue)) (k : String)
    (h : k ∉ l.map Prod.fst) : lookupEntry l k = none := by
  unfold lookupEntry
  have hf : l.find? (fun e => e.fst == k) = none := by
    rw [List.find?_eq_none]
    intro e he hbe
    have hek : e.fst = k := by simpa using hbe
    exact h (hek ▸ List.mem_map_of_mem Prod.fst he)
  rw [hf]
  rfl

/- ===== Claim theorems ===== -/

/-- Claim C1: for every valid ValidationRequest payload (id non-empty, salt
at least 6 characters) and organization path segment, the create handler
writes exactly one record under the composite key org:id:timestamp whose
value carries org, id, salt and timestamp, answers with exactly the id and
salt, and — when the store's put throws — answers 500 with the underlying
error's message in the errors array. -/
theorem c1_create_writes_one_record_and_echoes (st : KV) (org : String)
    (data : ValidateRequest) (ts : String) (hwf : data.wf) :
    (st.fail = none →
      (createReqValidate st org data ts).2 = respIdSalt data.id data.salt
      ∧ lookupEntry (createReqValidate st org data ts).1.entries (makeKey org data.id ts)
          = some (KVValue.record ⟨org, data.id, data.salt, ts⟩)
      ∧ (∀ k, k ≠ makeKey org data.id ts →
          lookupEntry (createReqValidate st org data ts).1.entries k = lookupEntry st.entries k)
      ∧ (makeKey org data.id ts ∉ st.entries.map Prod.fst →
          (createReqValidate st org data ts).1.entries.length = st.entries.length + 1))
    ∧ (∀ m, st.fail = some m → createReqValidate st org data ts = (st, resp500Create m)) := by
  obtain ⟨l, f⟩ := st
  cases f with
  | none =>
    constructor
    · intro _
      rw [createReqValidate_ok]
      refine ⟨rfl, lookupEntry_put_self l _ _, ?_, ?_⟩
      · intro k hk
        exact lookupEntry_put_other l _ _ k hk
      · intro hnot
        have hfilter : l.filter (fun e => !(e.fst == makeKey org data.id ts)) = l := by
          rw [List.filter_eq_self]
          intro e he
          have hne : e.fst ≠ makeKey org data.id ts := by
            intro heq
            exact hnot (heq ▸ List.mem_map_of_mem Prod.fst he)
          simp [hne]
        show (l.filter (fun e => !(e.fst == makeKey org data.id ts)) ++
          [(makeKey org data.id ts, KVValue.record ⟨org, data.id, data.salt, ts⟩)]).length
            = l.length + 1
        rw [hfilter, List.length_append]
        rfl
    · intro m hm
      simp at hm
  | some m0 =>
    constructor
    · intro hf
      simp at hf
    · intro m hm
      have hm0 : m0 = m := by simpa using hm
      subst hm0
      rfl

/-- Witness for C1: a concrete successful create on the empty store. -/
theorem c1_witness :
    (createReqValidate kvEmpty "orga" ⟨"id1", "abcdef"⟩ "2024-01-01T00:00:00.000Z").2
      = respIdSalt "id1" "abcdef"
    ∧ lookupEntry
        (createReqValidate kvEmpty "orga" ⟨"id1", "abcdef"⟩ "2024-01-01T00:00:00.000Z").1.entries
        (makeKey "orga" "id1" "2024-01-01T00:00:00.000Z")
      = some (KVValue.record ⟨"orga", "id1", "abcdef", "2024-01-01T00:00:00.000Z"⟩) := by
  have h := (c1_create_writes_one_record_and_echoes kvEmpty "orga" ⟨"id1", "abcdef"⟩
    "2024-01-01T00:00:00.000Z" ⟨by decide, by decide⟩).1 rfl
  exact ⟨h.1, h.2.1⟩

/-- Claim C7: GET /posts always answers 200 with ok true and the empty
posts collection, and GET /posts/:id always answers 200 with ok true and a
null post, for every supplied identifier — never a not-found error. -/
theorem c7_posts_stub_reads (id : String) :
    getPosts = ⟨200, JVal.obj [("ok", JVal.bool true), ("posts", JVal.arr [])]⟩
    ∧ getPostById id = ⟨200, JVal.obj [("ok", JVal.bool true), ("post", JVal.null)]⟩
    ∧ (getPostById id).status ≠ 404 :=
  ⟨rfl, rfl, by simp [getPostById]⟩

/-- Claim C8 counterexample: the handler reads the clock twice (one new
Date() per field); reads one millisecond apart yield a post whose createdAt
and updatedAt differ, refuting that the two timestamps are always
identical. -/
theorem c8_counterexample :
    createPost ⟨"t1", "c1"⟩ "u1" "2024-01-01T00:00:00.000Z" "2024-01-01T00:00:00.001Z"
      = ⟨201, JVal.obj [("ok", JVal.bool true),
          ("post", postToJVal ⟨"u1", "t1", "c1",
            "2024-01-01T00:00:00.000Z", "2024-01-01T00:00:00.001Z"⟩)]⟩
    ∧ ("2024-01-01T00:00:00.000Z" : String) ≠ "2024-01-01T00:00:00.001Z" :=
  ⟨rfl, by decide⟩

/-- Claim C8 amended: create-post answers 201 with a post that echoes the
payload's title and content, carries the generated UUID as id (ids are
distinct across calls whenever the generated UUIDs are), createdAt from the
first clock read and updatedAt from the second — identical exactly when the
two reads fall in the same millisecond; no store is involved. -/
theorem c8_amended_create_post (d : PostPayload) (uuid now1 now2 : String) :
    createPost d uuid now1 now2
      = ⟨201, JVal.obj [("ok", JVal.bool true),
          ("post", JVal.obj [("id", JVal.str uuid), ("title", JVal.str d.title),
            ("content", JVal.str d.content), ("createdAt", JVal.str now1),
            ("updatedAt", JVal.str now2)])]⟩
    ∧ (now1 = now2 → createPost d uuid now1 now2
        = ⟨201, JVal.obj [("ok", JVal.bool true),
            ("post", JVal.obj [("id", JVal.str uuid), ("title", JVal.str d.title),
              ("content", JVal.str d.content), ("createdAt", JVal.str now1),
              ("updatedAt", JVal.str now1)])]⟩)
    ∧ (∀ (d' : PostPayload) (uuid' n1 n2 : String), uuid ≠ uuid' →
        createPost d uuid now1 now2 ≠ createPost d' uuid' n1 n2) := by
  refine ⟨rfl, ?_, ?_⟩
  · intro h
    subst h
    rfl
  · intro d' uuid' n1 n2 hne heq
    apply hne
    simp only [createPost, postToJVal, HttpResponse.mk.injEq, JVal.obj.injEq,
      List.cons.injEq, Prod.mk.injEq, JVal.str.injEq, JVal.bool.injEq] at heq
    tauto

/-- Witness for C8 amended: equal clock reads give equal timestamps, and
distinct UUIDs give distinct responses. -/
theorem c8_witness :
    createPost ⟨"ta", "ca"⟩ "uuid-a" "2024-01-01T00:00:00.000Z" "2024-01-01T00:00:00.000Z"
      = ⟨201, JVal.obj [("ok", JVal.bool true),
          ("post", JVal.obj [("id", JVal.str "uuid-a"), ("title", JVal.str "ta"),
            ("content", JVal.str "ca"), ("createdAt", JVal.str "2024-01-01T00:00:00.000Z"),
            ("updatedAt", JVal.str "2024-01-01T00:00:00.000Z")])]⟩
    ∧ createPost ⟨"ta", "ca"⟩ "uuid-a" "2024-01-01T00:00:00.000Z" "2024-01-01T00:00:00.000Z"
      ≠ createPost ⟨"tb", "cb"⟩ "uuid-b" "2024-01-01T00:00:00.000Z"
          "2024-01-01T00:00:00.000Z" := by
  have h := c8_amended_create_post ⟨"ta", "ca"⟩ "uuid-a" "2024-01-01T00:00:00.000Z"
    "2024-01-01T00:00:00.000Z"
  exact ⟨h.2.1 rfl, h.2.2 ⟨"tb", "cb"⟩ "uuid-b" _ _ (by decide)⟩

/-- Claim C9: the deletion scan selects by raw string prefix and
identifiers may contain the delimiter, so a DELETE for (org, id) also
removes a record created under the different identifier id:x — the
composite-key encoding is not injective in (organization, identifier). -/
theorem c9_delete_prefix_collision :
    (∀ org id rest ts, strHasPrefix (org ++ ":" ++ id ++ ":")
        (makeKey org (id ++ ":" ++ rest) ts) = true)
    ∧ (deleteReqValidate
        ⟨[(makeKey "o" "a" "t1", KVValue.record ⟨"o", "a", "salt01", "t1"⟩),
          (makeKey "o" "a:x" "t2", KVValue.record ⟨"o", "a:x", "salt02", "t2"⟩)], none⟩
        "o" ⟨"a", "abcdef"⟩)
      = (⟨[], none⟩, respIdSalt "a" "abcdef")
    ∧ ("a:x" : String) ≠ "a" := by
  refine ⟨?_, rfl, by decide⟩
  intro org id rest ts
  have hk : makeKey org (id ++ ":" ++ rest) ts
      = (org ++ ":" ++ id ++ ":") ++ (rest ++ ":" ++ ts) := by
    simp [makeKey, String.append_assoc]
  rw [hk]
  exact strHasPrefix_append _ _

/-- Claim C3: the delete handler lists keys with prefix org:id:; with no
match it answers 404 and leaves the store unchanged; otherwise it deletes
every matching key and echoes id and salt verbatim from the request
payload — the echoed salt is the caller's whatever the deleted records
stored. -/
theorem c3_delete_matching (st : KV) (org : String) (data : ValidateRequest)
    (hwf : data.wf) (hok : st.fail = none) :
    ((∀ k ∈ st.entries.map Prod.fst,
        strHasPrefix (org ++ ":" ++ data.id ++ ":") k = false) →
      deleteReqValidate st org data = (st, resp404 org))
    ∧ ((∃ k ∈ st.entries.map Prod.fst,
          strHasPrefix (org ++ ":" ++ data.id ++ ":") k = true) →
      (deleteReqValidate st org data).2 = respIdSalt data.id data.salt
      ∧ (∀ k, strHasPrefix (org ++ ":" ++ data.id ++ ":") k = true →
          lookupEntry (deleteReqValidate st org data).1.entries k = none)
      ∧ (∀ k, strHasPrefix (org ++ ":" ++ data.id ++ ":") k = false →
          lookupEntry (deleteReqValidate st org data).1.entries k
            = lookupEntry st.entries k)) := by
  obtain ⟨l, f⟩ := st
  cases f with
  | some m0 => simp at hok
  | none =>
    have hkeys : KV.listKeys ⟨l, none⟩ (org ++ ":" ++ data.id ++ ":")
        = Except.ok (sortKeys ((l.map Prod.fst).filter
            (fun k => strHasPrefix (org ++ ":" ++ data.id ++ ":") k))) := rfl
    constructor
    · intro hall
      have hfil : (l.map Prod.fst).filter
          (fun k => strHasPrefix (org ++ ":" ++ data.id ++ ":") k) = [] := by
        rw [List.filter_eq_nil_iff]
        intro a ha
        simp [hall a ha]
      unfold deleteReqValidate
      rw [hkeys, hfil]
      rfl
    · intro hex
      obtain ⟨k0, hk0mem, hk0⟩ := hex
      have hksne : sortKeys ((l.map Prod.fst).filter
          (fun k => strHasPrefix (org ++ ":" ++ data.id ++ ":") k)) ≠ [] := by
        intro h
        have hnil := sortKeys_eq_nil_iff.mp h
        have hmem : k0 ∈ (l.map Prod.fst).filter
            (fun k => strHasPrefix (org ++ ":" ++ data.id ++ ":") k) :=
          List.mem_filter.mpr ⟨hk0mem, hk0⟩
        rw [hnil] at hmem
        cases hmem
      have hie : (sortKeys ((l.map Prod.fst).filter
          (fun k => strHasPrefix (org ++ ":" ++ data.id ++ ":") k))).isEmpty = false :=
        List.isEmpty_eq_false.mpr hksne
      have hres : deleteReqValidate ⟨l, none⟩ org data
          = (⟨l.filter (fun e => !((sortKeys ((l.map Prod.fst).filter
                (fun k => strHasPrefix (org ++ ":" ++ data.id ++ ":") k))).contains e.fst)),
              none⟩,
             respIdSalt data.id data.salt) := by
        simp only [deleteReqValidate, hkeys, hie, Bool.false_eq_true, if_false, delAll_ok]
      refine ⟨by rw [hres], ?_, ?_⟩
      · intro k hk
        rw [hres]
        by_cases hmem : k ∈ l.map Prod.fst
        · apply lookupEntry_filter_none
          intro e he
          have hkmem : k ∈ sortKeys ((l.map Prod.fst).filter
              (fun x => strHasPrefix (org ++ ":" ++ data.id ++ ":") x)) :=
            mem_sortKeys.mpr (List.mem_filter.mpr ⟨hmem, hk⟩)
          have hc : (sortKeys ((l.map Prod.fst).filter
              (fun x => strHasPrefix (org ++ ":" ++ data.id ++ ":") x))).contains k = true :=
            List.elem_eq_true_of_mem hkmem
          rw [he, hc]
          rfl
        · apply lookupEntry_eq_none_of_not_mem
          intro hmm
          obtain ⟨e, he, hek⟩ := List.mem_map.mp hmm
          exact hmem (hek ▸ List.mem_map_of_mem Prod.fst (List.mem_filter.mp he).1)
      · intro k hk
        rw [hres]
        apply lookupEntry_filter_keep
        intro e hek
        have hnc : (sortKeys ((l.map Prod.fst).filter
            (fun x => strHasPrefix (org ++ ":" ++ data.id ++ ":") x))).contains k = false := by
          cases hc : (sortKeys ((l.map Prod.fst).filter
              (fun x => strHasPrefix (org ++ ":" ++ data.id ++ ":") x))).contains k with
          | false => rfl
          | true =>
            have hmem : k ∈ sortKeys ((l.map Prod.fst).filter
                (fun x => strHasPrefix (org ++ ":" ++ data.id ++ ":") x)) :=
              List.elem_iff.mp hc
            have hpre := (List.mem_filter.mp (mem_sortKeys.mp hmem)).2
            rw [hk] at hpre
            cases hpre
        rw [hek, hnc]
        rfl

/-- Witness for C3: deleting the single record of (o2, idz) empties the
store and echoes the caller's salt, which differs from the stored salt. -/
theorem c3_witness :
    (deleteReqValidate ⟨[(makeKey "o2" "idz" "t0",
        KVValue.record ⟨"o2", "idz", "storedsalt", "t0"⟩)], none⟩ "o2"
        ⟨"idz", "callersalt"⟩).2 = respIdSalt "idz" "callersalt"
    ∧ lookupEntry (deleteReqValidate ⟨[(makeKey "o2" "idz" "t0",
        KVValue.record ⟨"o2", "idz", "storedsalt", "t0"⟩)], none⟩ "o2"
        ⟨"idz", "callersalt"⟩).1.entries (makeKey "o2" "idz" "t0") = none
    ∧ ("callersalt" : String) ≠ "storedsalt" := by
  have h := (c3_delete_matching ⟨[(makeKey "o2" "idz" "t0",
      KVValue.record ⟨"o2", "idz", "storedsalt", "t0"⟩)], none⟩ "o2"
      ⟨"idz", "callersalt"⟩ ⟨by decide, by decide⟩ rfl).2
      ⟨makeKey "o2" "idz" "t0", by decide, by decide⟩
  exact ⟨h.1, h.2.1 (makeKey "o2" "idz" "t0") (by decide), by decide⟩

/-- Characterization of one z.string().min(lo).max(hi) field check. -/
lemma checkStrField_some_iff (fields : List (String × JVal)) (name : String) (lo : Nat)
    (hi : Option Nat) (s : String) :
    (checkStrField fields name lo hi).2 = some s ↔
      (lookupField fields name = some (JVal.str s) ∧ lo ≤ s.length ∧
        ∀ b, hi = some b → s.length ≤ b) := by
  unfold checkStrField
  cases hlf : lookupField fields name with
  | none => simp
  | some v =>
    cases v with
    | str t =>
      show ((if t.length < lo then (([(name, "too_small")], none) : List FieldIssue × Option String)
        else match hi with
          | some h => if h < t.length then ([(name, "too_big")], none) else ([], some t)
          | none => ([], some t)).2 = some s) ↔ _
      by_cases hlo : t.length < lo
      · rw [if_pos hlo]
        constructor
        · intro h
          simp at h
        · rintro ⟨hts, hle, -⟩
          simp only [Option.some.injEq, JVal.str.injEq] at hts
          subst hts
          exact absurd hlo (by omega)
      · rw [if_neg hlo]
        cases hi with
        | none =>
          simp only [Option.some.injEq, JVal.str.injEq]
          constructor
          · intro h
            subst h
            exact ⟨rfl, by omega, fun b hb => by cases hb⟩
          · rintro ⟨hts, -, -⟩
            exact hts
        | some b =>
          show ((if b < t.length then (([(name, "too_big")], none) : List FieldIssue × Option String)
            else ([], some t)).2 = some s) ↔ _
          by_cases hbt : b < t.length
          · rw [if_pos hbt]
            constructor
            · intro h
              simp at h
            · rintro ⟨hts, -, hub⟩
              simp only [Option.some.injEq, JVal.str.injEq] at hts
              subst hts
              exact absurd (hub b rfl) (by omega)
          · rw [if_neg hbt]
            simp only [Option.some.injEq, JVal.str.injEq]
            constructor
            · intro h
              subst h
              exact ⟨rfl, by omega, fun b' hb' => by cases hb'; omega⟩
            · rintro ⟨hts, -, -⟩
              exact hts
    | null => simp
    | bool b => simp
    | num n => simp
    | arr elems => simp
    | obj fs => simp

/-- postSchema accepts exactly the payloads of postPayloadOk. -/
lemma safeParsePost_ok_iff (v : JVal) :
    (∃ p, safeParsePost v = Except.ok p) ↔ postPayloadOk v := by
  cases v with
  | obj fields =>
    constructor
    · rintro ⟨p, hp⟩
      simp only [safeParsePost] at hp
      cases ht : (checkStrField fields "title" 1 (some 100)).2 with
      | none => rw [ht] at hp; cases hc2 : (checkStrField fields "content" 1 (some 1000)).2 <;>
          rw [hc2] at hp <;> cases hp
      | some ts =>
        cases hc : (checkStrField fields "content" 1 (some 1000)).2 with
        | none => rw [ht, hc] at hp; cases hp
        | some cs =>
          obtain ⟨hlt, hlo1, hhi1⟩ := (checkStrField_some_iff _ _ _ _ _).mp ht
          obtain ⟨hlc, hlo2, hhi2⟩ := (checkStrField_some_iff _ _ _ _ _).mp hc
          exact ⟨fields, ts, cs, rfl, hlt, hlo1, hhi1 100 rfl, hlc, hlo2, hhi2 1000 rfl⟩
    · rintro ⟨fields', t, c, hv, hlt, hlo1, hhi1, hlc, hlo2, hhi2⟩
      cases hv
      have ht : (checkStrField fields "title" 1 (some 100)).2 = some t :=
        (checkStrField_some_iff _ _ _ _ _).mpr ⟨hlt, hlo1, fun b hb => by cases hb; omega⟩
      have hc : (checkStrField fields "content" 1 (some 1000)).2 = some c :=
        (checkStrField_some_iff _ _ _ _ _).mpr ⟨hlc, hlo2, fun b hb => by cases hb; omega⟩
      refine ⟨⟨t, c⟩, ?_⟩
      simp only [safeParsePost]
      rw [ht, hc]
  | null =>
    refine iff_of_false ?_ ?_
    · rintro ⟨p, hp⟩
      simp [safeParsePost] at hp
    · rintro ⟨fields, t, c, hv, -⟩
      cases hv
  | bool b =>
    refine iff_of_false ?_ ?_
    · rintro ⟨p, hp⟩
      simp [safeParsePost] at hp
    · rintro ⟨fields, t, c, hv, -⟩
      cases hv
  | num n =>
    refine iff_of_false ?_ ?_
    · rintro ⟨p, hp⟩
      simp [safeParsePost] at hp
    · rintro ⟨fields, t, c, hv, -⟩
      cases hv
  | str s =>
    refine iff_of_false ?_ ?_
    · rintro ⟨p, hp⟩
      simp [safeParsePost] at hp
    · rintro ⟨fields, t, c, hv, -⟩
      cases hv
  | arr elems =>
    refine iff_of_false ?_ ?_
    · rintro ⟨p, hp⟩
      simp [safeParsePost] at hp
    · rintro ⟨fields, t, c, hv, -⟩
      cases hv

/-- validateRequestSchema accepts exactly the payloads of
validateReqPayloadOk. -/
lemma safeParseValidateRequest_ok_iff (v : JVal) :
    (∃ d, safeParseValidateRequest v = Except.ok d) ↔ validateReqPayloadOk v := by
  cases v with
  | obj fields =>
    constructor
    · rintro ⟨d, hd⟩
      simp only [safeParseValidateRequest] at hd
      cases hi : (checkStrField fields "id" 1 none).2 with
      | none => rw [hi] at hd; cases hs2 : (checkStrField fields "salt" 6 none).2 <;>
          rw [hs2] at hd <;> cases hd
      | some iv =>
        cases hs : (checkStrField fields "salt" 6 none).2 with
        | none => rw [hi, hs] at hd; cases hd
        | some sv =>
          obtain ⟨hli, hlo1, -⟩ := (checkStrField_some_iff _ _ _ _ _).mp hi
          obtain ⟨hls, hlo2, -⟩ := (checkStrField_some_iff _ _ _ _ _).mp hs
          exact ⟨fields, iv, sv, rfl, hli, hlo1, hls, hlo2⟩
    · rintro ⟨fields', iv, sv, hv, hli, hlo1, hls, hlo2⟩
      cases hv
      have hi : (checkStrField fields "id" 1 none).2 = some iv :=
        (checkStrField_some_iff _ _ _ _ _).mpr ⟨hli, hlo1, fun b hb => by cases hb⟩
      have hs : (checkStrField fields "salt" 6 none).2 = some sv :=
        (checkStrField_some_iff _ _ _ _ _).mpr ⟨hls, hlo2, fun b hb => by cases hb⟩
      refine ⟨⟨iv, sv⟩, ?_⟩
      simp only [safeParseValidateRequest]
      rw [hi, hs]
  | null =>
    refine iff_of_false ?_ ?_
    · rintro ⟨d, hd⟩
      simp [safeParseValidateRequest] at hd
    · rintro ⟨fields, iv, sv, hv, -⟩
      cases hv
  | bool b =>
    refine iff_of_false ?_ ?_
    · rintro ⟨d, hd⟩
      simp [safeParseValidateRequest] at hd
    · rintro ⟨fields, iv, sv, hv, -⟩
      cases hv
  | num n =>
    refine iff_of_false ?_ ?_
    · rintro ⟨d, hd⟩
      simp [safeParseValidateRequest] at hd
    · rintro ⟨fields, iv, sv, hv, -⟩
      cases hv
  | str s =>
    refine iff_of_false ?_ ?_
    · rintro ⟨d, hd⟩
      simp [safeParseValidateRequest] at hd
    · rintro ⟨fields, iv, sv, hv, -⟩
      cases hv
  | arr elems =>
    refine iff_of_false ?_ ?_
    · rintro ⟨d, hd⟩
      simp [safeParseValidateRequest] at hd
    · rintro ⟨fields, iv, sv, hv, -⟩
      cases hv

/-- Claim C4 counterexample: a Post payload with an extra field passes
validation unchanged except for stripping — z.object's default mode drops
unknown keys instead of rejecting them — refuting that extra fields fail
validation. -/
theorem c4_counterexample :
    safeParsePost (JVal.obj [("title", JVal.str "a"), ("content", JVal.str "b"),
      ("extra", JVal.str "x")]) = Except.ok ⟨"a", "b"⟩ := rfl

/-- Claim C4 amended: schema validation gates the mutating handlers: a Post
payload passes iff its title is a string of 1-100 characters and its
content a string of 1-1000 characters, a ValidationRequest payload passes
iff its id is a non-empty string and its salt a string of at least 6
characters — missing or mistyped fields fail, but extra fields are
stripped, not rejected — and on any failure the handler body never runs:
the store is returned untouched and the response is HTTP 400 carrying the
field-level issues and the generic message Invalid input. -/
theorem c4_schema_gating (v : JVal) :
    ((∃ p, safeParsePost v = Except.ok p) ↔ postPayloadOk v)
    ∧ ((∃ d, safeParseValidateRequest v = Except.ok d) ↔ validateReqPayloadOk v)
    ∧ (∀ issues, safeParseValidateRequest v = Except.error issues →
        (∀ st org ts, postReqValidateRoute st org v ts = (st, respInvalid issues))
        ∧ (∀ st org, deleteReqValidateRoute st org v = (st, respInvalid issues))
        ∧ (respInvalid issues).status = 400
        ∧ (respInvalid issues).body = JVal.obj [("ok", JVal.bool false),
            ("message", JVal.str "Invalid input"), ("errors", issuesToJVal issues)])
    ∧ (∀ issues, safeParsePost v = Except.error issues →
        ∀ uuid n1 n2, postPostsRoute v uuid n1 n2 = respInvalid issues) := by
  refine ⟨safeParsePost_ok_iff v, safeParseValidateRequest_ok_iff v, ?_, ?_⟩
  · intro issues h
    refine ⟨?_, ?_, rfl, rfl⟩
    · intro st org ts
      unfold postReqValidateRoute
      rw [h]
    · intro st org
      unfold deleteReqValidateRoute
      rw [h]
  · intro issues h uuid n1 n2
    unfold postPostsRoute
    rw [h]

/-- Witness for C4: a too-short salt is rejected with a 400 and no store
effect, while a payload with an extra field passes. -/
theorem c4_witness :
    postReqValidateRoute kvEmpty "o"
        (JVal.obj [("id", JVal.str "x"), ("salt", JVal.str "short")]) "t"
      = (kvEmpty, respInvalid [("salt", "too_small")])
    ∧ postPayloadOk (JVal.obj [("title", JVal.str "a"), ("content", JVal.str "b"),
        ("extra", JVal.str "x")]) := by
  have h := c4_schema_gating (JVal.obj [("id", JVal.str "x"), ("salt", JVal.str "short")])
  have h2 := c4_schema_gating (JVal.obj [("title", JVal.str "a"), ("content", JVal.str "b"),
    ("extra", JVal.str "x")])
  exact ⟨(h.2.2.1 [("salt", "too_small")] rfl).1 kvEmpty "o" "t",
    h2.1.mp ⟨⟨"a", "b"⟩, rfl⟩⟩

/-- Claim C2 counterexample: with one stored value that is not valid JSON,
the GET handler's JSON.parse throws and the catch answers 500 — not the
404 fall-through the claim asserts for an unparsable value. -/
theorem c2_counterexample :
    getReqValidate ⟨[("o:a:t", KVValue.raw "not json")], none⟩ "o"
      = resp500Fetch jsonSyntaxErrorMsg
    ∧ (getReqValidate ⟨[("o:a:t", KVValue.raw "not json")], none⟩ "o").status ≠ 404 :=
  ⟨rfl, by decide⟩

/-- Claim C2 amended: the GET handler scans exactly the stored keys with
prefix org:; an empty scan answers 404 with the explanatory body; otherwise
it takes the last key of the lexicographically ordered listing: a stored
record there answers 200 with its id and salt; a missing value, and a falsy
fetched value (the stored empty string, which the if (value) guard filters
out before JSON.parse), fall through to the same 404; but a truthy value
that is not valid JSON makes JSON.parse throw, so the handler answers 500
with the error in the errors array — not 404. -/
theorem c2_list_latest (st : KV) (org : String) (hok : st.fail = none) :
    (∀ k, k ∈ orgScan st.entries org ↔
      (k ∈ st.entries.map Prod.fst ∧ strHasPrefix (org ++ ":") k = true))
    ∧ (orgScan st.entries org = [] → getReqValidate st org = resp404 org)
    ∧ (∀ lastKey r, (orgScan st.entries org).getLast? = some lastKey →
        lookupEntry st.entries lastKey = some (KVValue.record r) →
        getReqValidate st org = respIdSalt r.id r.salt)
    ∧ (∀ lastKey s, (orgScan st.entries org).getLast? = some lastKey →
        lookupEntry st.entries lastKey = some (KVValue.raw s) → s ≠ "" →
        getReqValidate st org = resp500Fetch jsonSyntaxErrorMsg)
    ∧ (∀ lastKey, (orgScan st.entries org).getLast? = some lastKey →
        lookupEntry st.entries lastKey = some (KVValue.raw "") →
        getReqValidate st org = resp404 org) := by
  obtain ⟨l, f⟩ := st
  cases f with
  | some m0 => simp at hok
  | none =>
    refine ⟨?_, getReqValidate_empty l org, getReqValidate_found l org,
      getReqValidate_raw l org, getReqValidate_falsy l org⟩
    intro k
    unfold orgScan
    rw [mem_sortKeys, List.mem_filter]

/-- Witness for C2 amended: a stored record is returned from the last
scanned key, an empty organization answers 404, a stored falsy empty
string also answers 404, and a stored truthy non-JSON value answers 500. -/
theorem c2_witness :
    getReqValidate ⟨[("o:a:t", KVValue.record ⟨"o", "a", "abcdef", "t"⟩)], none⟩ "o"
      = respIdSalt "a" "abcdef"
    ∧ getReqValidate kvEmpty "o" = resp404 "o"
    ∧ getReqValidate ⟨[("o:a:t", KVValue.raw "")], none⟩ "o" = resp404 "o"
    ∧ getReqValidate ⟨[("o:a:t", KVValue.raw "not json")], none⟩ "o"
      = resp500Fetch jsonSyntaxErrorMsg := by
  have h := c2_list_latest ⟨[("o:a:t", KVValue.record ⟨"o", "a", "abcdef", "t"⟩)], none⟩ "o" rfl
  have h0 := c2_list_latest kvEmpty "o" rfl
  have hf := c2_list_latest ⟨[("o:a:t", KVValue.raw "")], none⟩ "o" rfl
  have hr := c2_list_latest ⟨[("o:a:t", KVValue.raw "not json")], none⟩ "o" rfl
  exact ⟨h.2.2.1 "o:a:t" ⟨"o", "a", "abcdef", "t"⟩ rfl rfl, h0.2.1 rfl,
    hf.2.2.2.2 "o:a:t" rfl rfl,
    hr.2.2.2.1 "o:a:t" "not json" rfl rfl (by decide)⟩

/-- Claim C5 counterexample: with an existing lexicographically larger key
for the same organization (identifier z), creating identifier a and then
listing returns the old record's id and salt, not the just-created ones. -/
theorem c5_counterexample :
    getReqValidate (createReqValidate
        ⟨[("o:z:1", KVValue.record ⟨"o", "z", "zsalt99", "1"⟩)], none⟩
        "o" ⟨"a", "abcdef"⟩ "2").1 "o"
      = respIdSalt "z" "zsalt99"
    ∧ respIdSalt "z" "zsalt99" ≠ respIdSalt "a" "abcdef" := by
  refine ⟨rfl, ?_⟩
  intro h
  simp [respIdSalt] at h

/-- Claim C5 amended: create-then-list returns the just-created id and salt
provided every already-stored key of the organization is lexicographically
smaller than the new composite key (in particular whenever the organization
holds no records); an existing larger key wins the last-of-listing pick
instead, so the unconditional claim fails. -/
theorem c5_create_then_list (st : KV) (org : String) (data : ValidateRequest) (ts : String)
    (hok : st.fail = none) (hwf : data.wf)
    (hmax : ∀ k ∈ st.entries.map Prod.fst, strHasPrefix (org ++ ":") k = true →
      k < makeKey org data.id ts) :
    getReqValidate (createReqValidate st org data ts).1 org
      = respIdSalt data.id data.salt := by
  obtain ⟨l, f⟩ := st
  cases f with
  | some m0 => simp at hok
  | none =>
    have hstore : (createReqValidate ⟨l, none⟩ org data ts).1
        = ⟨l.filter (fun e => !(e.fst == makeKey org data.id ts)) ++
            [(makeKey org data.id ts, KVValue.record ⟨org, data.id, data.salt, ts⟩)],
          none⟩ := by
      rw [createReqValidate_ok]
    rw [hstore]
    refine getReqValidate_found _ org (makeKey org data.id ts)
      ⟨org, data.id, data.salt, ts⟩ ?_ (lookupEntry_put_self l _ _)
    unfold orgScan
    have hfil : ((l.filter (fun e => !(e.fst == makeKey org data.id ts)) ++
        [(makeKey org data.id ts, KVValue.record ⟨org, data.id, data.salt, ts⟩)]).map
          Prod.fst).filter (fun k => strHasPrefix (org ++ ":") k)
        = ((l.filter (fun e => !(e.fst == makeKey org data.id ts))).map Prod.fst).filter
            (fun k => strHasPrefix (org ++ ":") k) ++ [makeKey org data.id ts] := by
      rw [List.map_append, List.filter_append]
      congr 1
      show List.filter _ [makeKey org data.id ts] = _
      simp [List.filter, strHasPrefix_org_makeKey]
    rw [hfil]
    apply sortKeys_getLast?
    · exact List.mem_append_right _ (List.mem_singleton.mpr rfl)
    · intro y hy
      rcases List.mem_append.mp hy with hy | hy
      · obtain ⟨hy1, hy2⟩ := List.mem_filter.mp hy
        have hyl : y ∈ l.map Prod.fst :=
          ((List.filter_sublist l).map Prod.fst).subset hy1
        exact le_of_lt (hmax y hyl hy2)
      · exact le_of_eq (List.mem_singleton.mp hy)

/-- Witness for C5 amended: create-then-list on an organization with no
records returns the just-created id and salt. -/
theorem c5_witness :
    getReqValidate (createReqValidate kvEmpty "o" ⟨"a", "abcdef"⟩
        "2024-05-05T00:00:00.000Z").1 "o" = respIdSalt "a" "abcdef" :=
  c5_create_then_list kvEmpty "o" ⟨"a", "abcdef"⟩ "2024-05-05T00:00:00.000Z" rfl
    ⟨by decide, by decide⟩ (fun k hk _ => absurd hk (List.not_mem_nil k))

/-- Listing an organization whose store holds exactly two scanned keys in
increasing order picks the larger one last. -/
lemma orgScan_two (l : List (String × KVValue)) (org : String) (k1 k2 : String)
    (v1 v2 : KVValue)
    (hfree : ∀ k ∈ l.map Prod.fst, strHasPrefix (org ++ ":") k = false)
    (h1 : strHasPrefix (org ++ ":") k1 = true) (h2 : strHasPrefix (org ++ ":") k2 = true)
    (hlt : k1 < k2) :
    (orgScan (l ++ [(k1, v1), (k2, v2)]) org).getLast? = some k2 := by
  unfold orgScan
  have hfil : ((l ++ [(k1, v1), (k2, v2)]).map Prod.fst).filter
      (fun k => strHasPrefix (org ++ ":") k) = [k1, k2] := by
    rw [List.map_append, List.filter_append,
      show (l.map Prod.fst).filter (fun k => strHasPrefix (org ++ ":") k) = [] from
        List.filter_eq_nil_iff.mpr (fun a ha => by simp [hfree a ha]),
      List.nil_append]
    show List.filter _ [k1, k2] = [k1, k2]
    simp [List.filter, h1, h2]
  rw [hfil]
  apply sortKeys_getLast?
  · simp
  · intro y hy
    rcases List.mem_cons.mp hy with rfl | hy
    · exact le_of_lt hlt
    · exact le_of_eq (List.mem_singleton.mp hy)

/-- Reading the second of two appended fresh keys. -/
lemma lookup_two (l : List (String × KVValue)) (k1 k2 : String) (v1 v2 : KVValue)
    (hne : k1 ≠ k2) (hl : ∀ k ∈ l.map Prod.fst, k ≠ k2) :
    lookupEntry (l ++ [(k1, v1), (k2, v2)]) k2 = some v2 := by
  unfold lookupEntry
  rw [List.find?_append,
    show l.find? (fun e => e.fst == k2) = none from List.find?_eq_none.mpr
      (fun e he hbe => hl e.fst (List.mem_map_of_mem Prod.fst he) (by simpa using hbe)),
    List.find?_cons_of_neg _ (by simp [hne]), List.find?_cons_of_pos _ (by simp)]
  rfl

/-- Claim C6: composite keys sharing the org:id: prefix compare
lexicographically exactly as their capture instants compare
chronologically (the ISO-8601 rendering is order-faithful); consequently,
creating twice for the same organization and id at increasing instants and
then listing returns the record with the latest timestamp suffix — the
modelled prefix scan returns keys in lexicographic order, as the claim
assumes. -/
theorem c6_key_order_is_chronological :
    (∀ org id (a b : Timestamp), a.wf → b.wf →
      (makeKey org id a.toISO < makeKey org id b.toISO ↔ chronoLt a b))
    ∧ (∀ (st : KV) org id salt1 salt2 (a b : Timestamp), st.fail = none →
        a.wf → b.wf → chronoLt a b →
        (∀ k ∈ st.entries.map Prod.fst, strHasPrefix (org ++ ":") k = false) →
        getReqValidate ((createReqValidate
            ((createReqValidate st org ⟨id, salt1⟩ a.toISO).1)
            org ⟨id, salt2⟩ b.toISO).1) org
          = respIdSalt id salt2) := by
  constructor
  · intro org id a b ha hb
    rw [makeKey_lt_iff, toISO_lt_iff a b ha hb]
  · intro st org id salt1 salt2 a b hok ha hb hab hfree
    obtain ⟨l, f⟩ := st
    cases f with
    | some m0 => simp at hok
    | none =>
      have hltISO : Timestamp.toISO a < Timestamp.toISO b := (toISO_lt_iff a b ha hb).mpr hab
      have hkey_lt : makeKey org id a.toISO < makeKey org id b.toISO :=
        (makeKey_lt_iff org id _ _).mpr hltISO
      have hkne : makeKey org id a.toISO ≠ makeKey org id b.toISO := ne_of_lt hkey_lt
      have hfl1 : l.filter (fun e => !(e.fst == makeKey org id a.toISO)) = l := by
        rw [List.filter_eq_self]
        intro e he
        have hf := hfree e.fst (List.mem_map_of_mem Prod.fst he)
        have hne' : e.fst ≠ makeKey org id a.toISO := by
          intro heq
          rw [heq, strHasPrefix_org_makeKey] at hf
          cases hf
        simp [hne']
      have h1 : (createReqValidate ⟨l, none⟩ org ⟨id, salt1⟩ a.toISO).1
          = ⟨l ++ [(makeKey org id a.toISO, KVValue.record ⟨org, id, salt1, a.toISO⟩)],
            none⟩ := by
        rw [createReqValidate_ok]
        show (⟨_, none⟩ : KV) = _
        rw [hfl1]
      have hfl2 : (l ++ [(makeKey org id a.toISO,
            KVValue.record ⟨org, id, salt1, a.toISO⟩)]).filter
          (fun e => !(e.fst == makeKey org id b.toISO))
          = l ++ [(makeKey org id a.toISO, KVValue.record ⟨org, id, salt1, a.toISO⟩)] := by
        rw [List.filter_eq_self]
        intro e he
        rcases List.mem_append.mp he with he | he
        · have hf := hfree e.fst (List.mem_map_of_mem Prod.fst he)
          have hne' : e.fst ≠ makeKey org id b.toISO := by
            intro heq
            rw [heq, strHasPrefix_org_makeKey] at hf
            cases hf
          simp [hne']
        · rw [List.mem_singleton.mp he]
          simp [hkne]
      have h2 : (createReqValidate ⟨l ++ [(makeKey org id a.toISO,
            KVValue.record ⟨org, id, salt1, a.toISO⟩)], none⟩ org ⟨id, salt2⟩ b.toISO).1
          = ⟨l ++ [(makeKey org id a.toISO, KVValue.record ⟨org, id, salt1, a.toISO⟩),
              (makeKey org id b.toISO, KVValue.record ⟨org, id, salt2, b.toISO⟩)],
            none⟩ := by
        rw [createReqValidate_ok]
        show (⟨_, none⟩ : KV) = _
        rw [hfl2, List.append_assoc]
        rfl
      rw [h1, h2]
      refine getReqValidate_found _ org (makeKey org id b.toISO)
        ⟨org, id, salt2, b.toISO⟩ ?_ ?_
      · exact orgScan_two l org _ _ _ _ hfree (strHasPrefix_org_makeKey org id _)
          (strHasPrefix_org_makeKey org id _) hkey_lt
      · refine lookup_two l _ _ _ _ hkne ?_
        intro k hk heq
        have hf := hfree k hk
        rw [heq, strHasPrefix_org_makeKey] at hf
        cases hf

/-- Witness for C6: one-millisecond-apart instants order the keys, and the
double create followed by a list returns the later salt. -/
theorem c6_witness :
    (makeKey "o" "i" (Timestamp.toISO ⟨2024, 1, 2, 3, 4, 5, 6⟩)
      < makeKey "o" "i" (Timestamp.toISO ⟨2024, 1, 2, 3, 4, 5, 7⟩))
    ∧ getReqValidate ((createReqValidate ((createReqValidate kvEmpty "o" ⟨"i", "salt01"⟩
        (Timestamp.toISO ⟨2024, 1, 2, 3, 4, 5, 6⟩)).1) "o" ⟨"i", "salt02"⟩
        (Timestamp.toISO ⟨2024, 1, 2, 3, 4, 5, 7⟩)).1) "o" = respIdSalt "i" "salt02" := by
  have hwa : Timestamp.wf ⟨2024, 1, 2, 3, 4, 5, 6⟩ := by
    refine ⟨?_, ?_, ?_, ?_, ?_, ?_, ?_, ?_, ?_⟩ <;> decide
  have hwb : Timestamp.wf ⟨2024, 1, 2, 3, 4, 5, 7⟩ := by
    refine ⟨?_, ?_, ?_, ?_, ?_, ?_, ?_, ?_, ?_⟩ <;> decide
  have hc : chronoLt ⟨2024, 1, 2, 3, 4, 5, 6⟩ ⟨2024, 1, 2, 3, 4, 5, 7⟩ := by
    unfold chronoLt
    decide
  have h := c6_key_order_is_chronological
  exact ⟨(h.1 "o" "i" _ _ hwa hwb).mpr hc,
    h.2 kvEmpty "o" "i" "salt01" "salt02" _ _ rfl hwa hwb hc
      (fun k hk => absurd hk (List.not_mem_nil k))⟩

/-- Claim C10: the two source variants are not behaviorally equivalent on
the validation-request surface: they agree on the POST response (for any
gated body, under a healthy store), but only the full variant writes the
record to the store, and the reduced variant registers no GET or DELETE
req-validate route at all. -/
theorem c10_variants_not_equivalent :
    (∀ st org (data : ValidateRequest) ts, st.fail = none →
      (createReqValidate st org data ts).2 = createReqValidateV2 data)
    ∧ (∀ st org body ts, st.fail = none →
      (postReqValidateRoute st org body ts).2 = postReqValidateRouteV2 body)
    ∧ (∀ org (data : ValidateRequest) ts,
      lookupEntry (createReqValidate kvEmpty org data ts).1.entries (makeKey org data.id ts)
        = some (KVValue.record ⟨org, data.id, data.salt, ts⟩)
      ∧ (createReqValidate kvEmpty org data ts).1.entries.length = 1)
    ∧ ("GET", "/api/:org/req-validate") ∈ routesPart000
    ∧ ("GET", "/api/:org/req-validate") ∉ routesIndexTs
    ∧ ("DELETE", "/api/:org/req-validate") ∈ routesPart000
    ∧ ("DELETE", "/api/:org/req-validate") ∉ routesIndexTs := by
  refine ⟨?_, ?_, ?_, by decide, by decide, by decide, by decide⟩
  · intro st org data ts hok
    obtain ⟨l, f⟩ := st
    cases f with
    | some m0 => simp at hok
    | none =>
      rw [createReqValidate_ok]
      rfl
  · intro st org body ts hok
    unfold postReqValidateRoute postReqValidateRouteV2
    cases h : safeParseValidateRequest body with
    | error issues => rfl
    | ok d =>
      obtain ⟨l, f⟩ := st
      cases f with
      | some m0 => simp at hok
      | none =>
        show (createReqValidate ⟨l, none⟩ org d ts).2 = createReqValidateV2 d
        rw [createReqValidate_ok]
        rfl
  · intro org data ts
    exact ⟨lookupEntry_put_self [] _ _, rfl⟩

/-- Witness for C10: the variants agree on a concrete valid POST. -/
theorem c10_witness :
    (createReqValidate kvEmpty "o" ⟨"a", "abcdef"⟩ "t").2
      = createReqValidateV2 ⟨"a", "abcdef"⟩ :=
  c10_variants_not_equivalent.1 kvEmpty "o" ⟨"a", "abcdef"⟩ "t" rfl
